import Mathlib

/-!
# Verification of the trading-arena competition system

Shallow embedding of the numeric and control-flow kernels of the
`trading_arena` Python package, together with theorems settling the
frozen specification claims.  Python floats are embedded as exact
rationals (`ℚ`); `numpy.sqrt` (irrational in general) is carried as an
explicit function parameter `sqrtQ : ℚ → ℚ`, so every definition stays
executable.  Machine behaviour that the claims depend on (truncating
`int()` conversion, `max/min` clamps, list slicing) is translated
literally from the source files.
-/

namespace TradingArena

/-! ## Risk manager (`trading_arena/risk/manager.py`) -/

/-- A trade record; only the fields read by `calculate_risk_metrics`:
`pnl` is nullable, the timestamp used is `execution_timestamp or
signal_timestamp`. -/
structure Trade where
  signal_timestamp : ℕ
  execution_timestamp : Option ℕ
  pnl : Option ℚ
deriving Repr, DecidableEq

/-- A position; only `size` and `mark_price` are read by
`calculate_risk_metrics`. -/
structure Position where
  size : ℚ
  mark_price : ℚ
deriving Repr, DecidableEq

/-- Result record of `calculate_risk_metrics` (`RiskMetrics` dataclass). -/
structure RiskMetrics where
  sharpe_ratio : ℚ
  sortino_ratio : ℚ
  max_drawdown : ℚ
  current_drawdown : ℚ
  volatility : ℚ
  var_95 : ℚ
  leverage_usage : ℚ
  consistency_score : ℚ
  risk_score : ℚ
deriving Repr, DecidableEq

/-- `RiskMetrics(0, 0, 0, 0, 0, 0, 0, 0, 0)`, returned on the empty
branches of `calculate_risk_metrics`. -/
def zeroMetrics : RiskMetrics := ⟨0, 0, 0, 0, 0, 0, 0, 0, 0⟩

/-- `np.mean` over a list of rationals (0 on the empty list, by the
`ℚ`-convention `x / 0 = 0`). -/
def listMean (l : List ℚ) : ℚ := l.sum / l.length

/-- Population variance, i.e. the square of `np.std` (ddof = 0). -/
def listVariance (l : List ℚ) : ℚ :=
  ((l.map (fun x => (x - listMean l) ^ 2)).sum) / l.length

/-- `np.min` over a nonempty list (the caller guards emptiness). -/
def listMin : List ℚ → ℚ
  | [] => 0
  | x :: xs => xs.foldl min x

/-- The timestamp used for sorting: `execution_timestamp or
signal_timestamp`. -/
def tradeTimestamp (t : Trade) : ℕ := t.execution_timestamp.getD t.signal_timestamp

/-- The per-trade return series extracted by `calculate_risk_metrics`:
trades with a non-null `pnl` are kept while `initial_capital > 0`,
sorted (stably) by timestamp, each contributing `pnl / initial_capital`. -/
def tradeReturns (trades : List Trade) (initial_capital : ℚ) : List ℚ :=
  let tdata := trades.filterMap (fun t =>
    match t.pnl with
    | some p => if initial_capital > 0 then some (tradeTimestamp t, p / initial_capital) else none
    | none => none)
  (List.insertionSort (fun a b => a.1 ≤ b.1) tdata).map (·.2)

/-- `df['cumulative'] = (1 + df['return']).cumprod()`. -/
def cumulativeReturns (rs : List ℚ) : List ℚ :=
  (rs.scanl (fun acc r => acc * (1 + r)) 1).tail

/-- `np.maximum.accumulate` (running maximum). -/
def runningPeak : List ℚ → List ℚ
  | [] => []
  | c :: cs => cs.scanl max c

/-- `drawdown = np.where(peak > 1e-10, (cumulative - peak) / peak, 0)`. -/
def drawdownSeries (rs : List ℚ) : List ℚ :=
  let cum := cumulativeReturns rs
  (List.zip cum (runningPeak cum)).map
    (fun cp => if cp.2 > 1 / 10 ^ 10 then (cp.1 - cp.2) / cp.2 else 0)

/-- `max_drawdown = np.min(drawdown) if len(drawdown) > 0 else 0`:
the signed minimum of the drawdown series (always `≤ 0`). -/
def maxDrawdown (rs : List ℚ) : ℚ :=
  let dd := drawdownSeries rs
  if dd.length > 0 then listMin dd else 0

/-- `current_drawdown = drawdown[-1] if len(drawdown) > 0 else 0`. -/
def currentDrawdown (rs : List ℚ) : ℚ :=
  let dd := drawdownSeries rs
  if dd.length > 0 then dd.getLastD 0 else 0

/-- Sharpe ratio with the `std > 1e-10` guard; `std = sqrtQ(variance)`
embeds `np.std`, `sqrtQ 252` embeds `np.sqrt(252)`. -/
def sharpeRatioOf (sqrtQ : ℚ → ℚ) (rs : List ℚ) : ℚ :=
  if 1 < rs.length then
    let std := sqrtQ (listVariance rs)
    if std > 1 / 10 ^ 10 then listMean rs / std * sqrtQ 252 else 0
  else 0

/-- Sortino ratio: downside deviation over returns `< 0`, same guard. -/
def sortinoRatioOf (sqrtQ : ℚ → ℚ) (rs : List ℚ) : ℚ :=
  let ds := rs.filter (fun r => decide (r < 0))
  if 1 < ds.length then
    let std := sqrtQ (listVariance ds)
    if std > 1 / 10 ^ 10 then listMean rs / std * sqrtQ 252 else 0
  else 0

/-- Annualized volatility `np.std(returns) * np.sqrt(252)` (0 when fewer
than 2 points). -/
def volatilityOf (sqrtQ : ℚ → ℚ) (rs : List ℚ) : ℚ :=
  if 1 < rs.length then sqrtQ (listVariance rs) * sqrtQ 252 else 0

/-- `np.percentile(returns, 5)` with numpy's linear interpolation. -/
def percentile5 (rs : List ℚ) : ℚ :=
  let s := List.insertionSort (· ≤ ·) rs
  let pos : ℚ := (5 / 100) * ((s.length : ℚ) - 1)
  let lo := (Int.floor pos).toNat
  let frac := pos - (lo : ℚ)
  match s.get? lo, s.get? (lo + 1) with
  | some a, some b => a + frac * (b - a)
  | some a, none => a
  | _, _ => 0

/-- Total gross exposure over current capital; positions with falsy
(`0`) size or mark price are skipped, and the result is 0 unless
`current_capital > 1e-10`. -/
def leverageUsageOf (positions : List Position) (current_capital : ℚ) : ℚ :=
  let total := (positions.filterMap (fun p =>
    if p.size ≠ 0 ∧ p.mark_price ≠ 0 then some |p.size * p.mark_price| else none)).sum
  if current_capital > 1 / 10 ^ 10 then total / current_capital else 0

/-- Fraction of strictly positive returns. -/
def consistencyOf (rs : List ℚ) : ℚ :=
  if rs.length > 0 then ((rs.filter (fun r => decide (0 < r))).length : ℚ) / rs.length else 0

/-- The drawdown component of `_calculate_risk_score`:
`max(0, 20 - max_dd * 66.67)`. -/
def drawdownScore (max_dd : ℚ) : ℚ := max 0 (20 - max_dd * (6667 / 100))

/-- `RiskManager._calculate_risk_score`: composite 0-100 score. -/
def calculate_risk_score (sharpe sortino max_dd vol consistency leverage : ℚ) : ℚ :=
  let sharpe_score := min 30 (max 0 (sharpe * 12))
  let sortino_score := min 25 (max 0 (sortino * 10))
  let dd_score := drawdownScore max_dd
  let consistency_pts := consistency * 15
  let leverage_penalty := if leverage > 3 then min 10 (max 0 ((leverage - 3) * 2)) else 0
  let vol_penalty := if vol > 1 / 2 then min 10 (max 0 ((vol - 1 / 2) * 10)) else 0
  let base_score := sharpe_score + sortino_score + dd_score + consistency_pts
  let total_score := max 0 (base_score - leverage_penalty - vol_penalty)
  min 100 total_score

/-- `RiskManager.calculate_risk_metrics`.  Note that the *signed*
`maxDrawdown` is passed to the score, while the returned record holds
absolute values. -/
def calculate_risk_metrics (sqrtQ : ℚ → ℚ) (trades : List Trade) (positions : List Position)
    (current_capital initial_capital : ℚ) : RiskMetrics :=
  if trades = [] then zeroMetrics
  else
    let rs := tradeReturns trades initial_capital
    if rs = [] then zeroMetrics
    else
      let sharpe := sharpeRatioOf sqrtQ rs
      let sortino := sortinoRatioOf sqrtQ rs
      let md := maxDrawdown rs
      let cd := currentDrawdown rs
      let vol := volatilityOf sqrtQ rs
      let v95 := if 1 < rs.length then percentile5 rs else 0
      let lev := leverageUsageOf positions current_capital
      let cons := consistencyOf rs
      { sharpe_ratio := sharpe
        sortino_ratio := sortino
        max_drawdown := |md|
        current_drawdown := |cd|
        volatility := vol
        var_95 := |v95|
        leverage_usage := lev
        consistency_score := cons
        risk_score := calculate_risk_score sharpe sortino md vol cons lev }

/-! ## League manager (`trading_arena/competition/league.py`) -/

/-- One row of `update_competition_standings`'s `standings` list (the
fields read by `process_monthly_progression`). -/
structure Standing where
  agent_id : ℕ
  agent_name : String
  score : ℚ
deriving Repr, DecidableEq

/-- `self.promotion_threshold = 0.10`. -/
def promotion_threshold : ℚ := 10 / 100

/-- `self.demotion_threshold = 0.15`. -/
def demotion_threshold : ℚ := 15 / 100

/-- `max(1, int(total_participants * self.promotion_threshold))`; Python
`int()` truncates, which on nonnegative values is the floor. -/
def promotionCutoff (n : ℕ) : ℕ :=
  max 1 (Int.toNat (Int.floor ((n : ℚ) * promotion_threshold)))

/-- `max(1, int(total_participants * self.demotion_threshold))`. -/
def demotionCutoff (n : ℕ) : ℕ :=
  max 1 (Int.toNat (Int.floor ((n : ℚ) * demotion_threshold)))

/-- The claim's reading of the cutoff, `max(1, round(n × threshold))`,
kept separate for comparison with the source's `int(...)` truncation. -/
def promotionCutoffSpec (n : ℕ) : ℕ :=
  max 1 (Int.toNat (round ((n : ℚ) * promotion_threshold)))

/-- `tier_progression = ['bronze', 'silver', 'gold', 'platinum']`. -/
def tier_progression : List String := ["bronze", "silver", "gold", "platinum"]

/-- Python `str.lower()`, written on the character list. -/
def lowerStr (s : String) : String := ⟨s.data.map Char.toLower⟩

/-- `LeagueManager._get_next_tier`: index lookup after lowercasing,
`None` at the top of the ladder or for unknown tiers. -/
def get_next_tier (t : String) : Option String :=
  match tier_progression.indexOf? (lowerStr t) with
  | some i => if i < tier_progression.length - 1 then tier_progression.get? (i + 1) else none
  | none => none

/-- `LeagueManager._get_previous_tier`. -/
def get_previous_tier (t : String) : Option String :=
  match tier_progression.indexOf? (lowerStr t) with
  | some i => if i > 0 then tier_progression.get? (i - 1) else none
  | none => none

/-- One promotion/demotion record produced by
`process_monthly_progression`. -/
structure TierChange where
  agent_id : ℕ
  agent_name : String
  from_tier : String
  to_tier : String
  rank : ℕ
  score : ℚ
deriving Repr, DecidableEq

/-- The promotion pass over `standings[:promotion_cutoff]`; `tierOf`
abstracts the batch agent fetch plus `assign_agent_tier` (a missing
agent yields `none` and is skipped). -/
def processPromotions (standings : List Standing) (cutoff : ℕ)
    (tierOf : ℕ → Option String) : List TierChange :=
  (standings.take cutoff).enum.filterMap (fun is =>
    match tierOf is.2.agent_id with
    | none => none
    | some current_tier =>
      match get_next_tier current_tier with
      | some next_tier =>
        if next_tier ≠ current_tier then
          some ⟨is.2.agent_id, is.2.agent_name, current_tier, next_tier, is.1 + 1, is.2.score⟩
        else none
      | none => none)

/-- The demotion pass over `standings[-demotion_cutoff:]`. -/
def processDemotions (standings : List Standing) (cutoff : ℕ)
    (tierOf : ℕ → Option String) : List TierChange :=
  let bottom := standings.drop (standings.length - cutoff)
  bottom.enum.filterMap (fun is =>
    match tierOf is.2.agent_id with
    | none => none
    | some current_tier =>
      match get_previous_tier current_tier with
      | some prev_tier =>
        if prev_tier ≠ current_tier then
          some ⟨is.2.agent_id, is.2.agent_name, current_tier, prev_tier,
                standings.length - bottom.length + is.1 + 1, is.2.score⟩
        else none
      | none => none)

/-- `LeagueManager.process_monthly_progression`, restricted to its pure
core: standings in, promotions ++ demotions out. -/
def process_monthly_progression (standings : List Standing)
    (tierOf : ℕ → Option String) : List TierChange :=
  if standings.length = 0 then []
  else
    processPromotions standings (promotionCutoff standings.length) tierOf ++
    processDemotions standings (demotionCutoff standings.length) tierOf

/-! ## Tournament progression
(`trading_arena/competition/scoring.py`, `tournament.py`) -/

/-- `max(1, int(participants * (1 - elimination_rate)))` with the
configured `elimination_rate = 0.50`. -/
def advancing50 (n : ℕ) : ℕ :=
  max 1 (Int.toNat (Int.floor ((n : ℚ) * (1 - 50 / 100))))

/-- One entry of `calculate_tournament_progression`'s `rounds` list. -/
structure TournamentRound where
  round : ℕ
  start_participants : ℕ
  advancing : ℕ
  eliminated : ℕ
deriving Repr, DecidableEq

/-- The `while participants > 1` loop of
`calculate_tournament_progression` (and of
`_calculate_tournament_progression`, which counts the same
iterations). -/
def tournamentRoundsAux (round_num : ℕ) (participants : ℕ) : List TournamentRound :=
  if h : participants > 1 then
    let adv := advancing50 participants
    { round := round_num, start_participants := participants,
      advancing := adv, eliminated := participants - adv } ::
      tournamentRoundsAux (round_num + 1) adv
  else []
termination_by participants
decreasing_by
  have e1 : ((participants : ℚ) * (1 - 50 / 100)) = (participants : ℚ) / ((2 : ℕ) : ℚ) := by
    push_cast; ring
  have h3 : advancing50 participants = max 1 (participants / 2) := by
    rw [advancing50, e1, Int.floor_toNat, Nat.floor_div_eq_div]
  rw [h3]
  omega

/-- `rounds` list of `calculate_tournament_progression(n)`. -/
def tournamentRounds (n : ℕ) : List TournamentRound := tournamentRoundsAux 1 n

/-- `total_rounds` reported by `calculate_tournament_progression`, equal
to `rounds_remaining` of `_calculate_tournament_progression`. -/
def totalRounds (n : ℕ) : ℕ := (tournamentRounds n).length

/-- `TournamentManager._calculate_participants_per_round`. -/
def participantsPerRound (n : ℕ) : List ℕ :=
  n :: (tournamentRounds n).map TournamentRound.advancing

/-! ## Tournament elimination round
(`trading_arena/competition/tournament.py`) -/

/-- A ranked tournament participant (the fields `run_tournament_round`
reads when splitting and eliminating). -/
structure Ranking where
  agent_id : ℕ
  tournament_score : ℚ
deriving Repr, DecidableEq

/-- `eliminate_count = max(1, int(total_participants * self.elimination_rate))`
with `elimination_rate = 0.50`. -/
def eliminateCount (n : ℕ) : ℕ :=
  max 1 (Int.toNat (Int.floor ((n : ℚ) * (50 / 100))))

/-- `advancing = rankings[:-eliminate_count] if eliminate_count < total else rankings[:1]`. -/
def advancingList (rankings : List Ranking) : List Ranking :=
  let n := rankings.length
  let e := eliminateCount n
  if e < n then rankings.take (n - e) else rankings.take 1

/-- `eliminated = rankings[-eliminate_count:] if eliminate_count < total else rankings[1:]`. -/
def eliminatedList (rankings : List Ranking) : List Ranking :=
  let n := rankings.length
  let e := eliminateCount n
  if e < n then rankings.drop (n - e) else rankings.drop 1

/-- A `competition_entries` row (fields touched by `_eliminate_agent`). -/
structure CompetitionEntry where
  competition_id : ℕ
  agent_id : ℕ
  status : String
  elimination_reason : String
deriving Repr, DecidableEq

/-- `TournamentManager._eliminate_agent`: the `db.scalar(select ...)`
returns the first row matching competition and agent; if present its
status and reason are updated, otherwise nothing happens. -/
def eliminateAgent (db : List CompetitionEntry) (comp agent : ℕ)
    (reason : String) : List CompetitionEntry :=
  match db with
  | [] => []
  | e :: es =>
    if e.competition_id = comp ∧ e.agent_id = agent then
      { e with status := "eliminated", elimination_reason := reason } :: es
    else e :: eliminateAgent es comp agent reason

/-- The first entry for a (competition, agent) pair, as `db.scalar` of
the same `select` would return it. -/
def findEntry (db : List CompetitionEntry) (comp agent : ℕ) : Option CompetitionEntry :=
  db.find? (fun e => decide (e.competition_id = comp ∧ e.agent_id = agent))

/-- The elimination loop of `run_tournament_round`: `_eliminate_agent`
applied to every agent of the `eliminated` slice. -/
def runRoundDb (db : List CompetitionEntry) (comp round_num : ℕ)
    (rankings : List Ranking) : List CompetitionEntry :=
  (eliminatedList rankings).foldl
    (fun d r => eliminateAgent d comp r.agent_id ("Eliminated in round " ++ toString round_num)) db

/-! ## Tournament score (`scoring.py` `calculate_tournament_score`,
identical formula in `tournament.py` `_calculate_tournament_score`) -/

/-- The `performance` mapping: each key may be absent, with defaults
`return → 0.0`, `sharpe_ratio → 0.0`, `max_drawdown → 1.0`. -/
structure Performance where
  ret : Option ℚ
  sharpe_ratio : Option ℚ
  max_drawdown : Option ℚ
deriving Repr, DecidableEq

/-- `calculate_tournament_score(performance)`. -/
def calculate_tournament_score (p : Performance) : ℚ :=
  let total_return := p.ret.getD 0
  let sharpe := p.sharpe_ratio.getD 0
  let max_dd := p.max_drawdown.getD 1
  let return_score := min 40 (max 0 (total_return * 400))
  let sharpe_score := min 35 (max 0 (sharpe * 20))
  let drawdown_score := max 0 (25 - max_dd * 250)
  min 100 (max 0 (return_score + sharpe_score + drawdown_score))

/-! ## LLM client retry loop (`trading_arena/agents/llm_client.py`) -/

/-- What the HTTP layer yields for one attempt of `chat_completion`. -/
inductive LLMResponse
  | httpStatus (code : ℕ)
  | timeout
deriving Repr, DecidableEq

/-- How `chat_completion` ends. -/
inductive LLMOutcome
  | success
  | raisedApiError (code : ℕ)
  | raisedServerError (code : ℕ)
  | raisedTimeout
  | raisedExhausted
deriving Repr, DecidableEq

/-- `max_retries = 3`. -/
def max_retries : ℕ := 3

/-- The `for attempt in range(max_retries)` loop of `chat_completion`,
with `fuel` the remaining iterations.  One request is issued per
iteration (`sent` counts them).  A non-200/429/5xx status raises inside
the `try`, but that raise is caught by the blanket
`except Exception` handler, which sleeps and retries while
`attempt < max_retries - 1`; only on the final attempt does it
propagate.  The `fuel = 0` case is the `raise` after the loop. -/
def chatCompletionAux (resp : ℕ → LLMResponse) :
    (fuel attempt sent : ℕ) → ℕ × LLMOutcome
  | 0, _, sent => (sent, .raisedExhausted)
  | fuel + 1, attempt, sent =>
    match resp attempt with
    | .httpStatus code =>
      if code = 200 then (sent + 1, .success)
      else if code = 429 then chatCompletionAux resp fuel (attempt + 1) (sent + 1)
      else if 500 ≤ code then
        if attempt < max_retries - 1 then chatCompletionAux resp fuel (attempt + 1) (sent + 1)
        else (sent + 1, .raisedServerError code)
      else
        if attempt < max_retries - 1 then chatCompletionAux resp fuel (attempt + 1) (sent + 1)
        else (sent + 1, .raisedApiError code)
    | .timeout =>
      if attempt < max_retries - 1 then chatCompletionAux resp fuel (attempt + 1) (sent + 1)
      else (sent + 1, .raisedTimeout)

/-- `chat_completion`: (number of HTTP requests sent, outcome), given
the per-attempt responses. -/
def chat_completion (resp : ℕ → LLMResponse) : ℕ × LLMOutcome :=
  chatCompletionAux resp max_retries 0 0

/-! ## Advanced rate limiting (`trading_arena/api/middleware.py`) -/

/-- A per-endpoint limit from `AdvancedRateLimitMiddleware.limits`. -/
structure RateLimit where
  calls : ℕ
  period : ℚ
deriving Repr, DecidableEq

/-- The ordered `self.limits` table. -/
def advancedLimits : List (String × RateLimit) :=
  [("/api/v1/auth/login", ⟨5, 300⟩),
   ("/api/v1/auth/register", ⟨3, 300⟩),
   ("/api/v1/auth/refresh", ⟨10, 60⟩),
   ("/api/v1/trading/agents", ⟨50, 60⟩),
   ("/api/v1/trading/agent", ⟨30, 60⟩),
   ("/health", ⟨1000, 60⟩)]

/-- Python `path.startswith(limit_path)`, written on character lists. -/
def startsWith (path pre : String) : Bool := pre.data.isPrefixOf path.data

/-- `_get_limit`: first entry whose key the path starts with, else the
default. -/
def getLimit (path : String) (default_calls : ℕ) (default_period : ℚ) : RateLimit :=
  match advancedLimits.find? (fun pl => startsWith path pl.1) with
  | some pl => pl.2
  | none => ⟨default_calls, default_period⟩

/-- What the middleware does with one request. -/
inductive RequestOutcome
  | forwarded
  | rejected (limit : ℕ) (period : ℚ)
deriving Repr, DecidableEq

/-- The `while client_requests and now - client_requests[0] > period`
popleft loop. -/
def cleanOld (now period : ℚ) : List ℚ → List ℚ
  | [] => []
  | t :: ts => if now - t > period then cleanOld now period ts else t :: ts

/-- One `dispatch` call of `AdvancedRateLimitMiddleware` for a fixed
client key: health checks bypass the limiter; otherwise old timestamps
are dropped, a full window yields a 429 carrying the limit and the
period, and a forwarded request is appended to the window. -/
def rateLimitStep (path : String) (st : List ℚ) (now : ℚ) : List ℚ × RequestOutcome :=
  if path = "/health" then (st, .forwarded)
  else
    let cfg := getLimit path 100 60
    let st' := cleanOld now cfg.period st
    if cfg.calls ≤ st'.length then (st', .rejected cfg.calls cfg.period)
    else (st' ++ [now], .forwarded)

/-- A sequence of requests from one client to one path, threaded through
the middleware state. -/
def processRequests (path : String) : List ℚ → List ℚ → List ℚ × List RequestOutcome
  | st, [] => (st, [])
  | st, t :: ts =>
    let so := rateLimitStep path st t
    let rest := processRequests path so.1 ts
    (rest.1, so.2 :: rest.2)

/-! ## Technical analysis (`trading_arena/agents/technical_analysis.py`) -/

/-- `TechnicalAnalyzer.calculate_ema`. -/
def calculate_ema (prices : List ℚ) (period : ℕ) : ℚ :=
  if prices.length < period then
    if prices ≠ [] then listMean prices else 0
  else
    let multiplier : ℚ := 2 / ((period : ℚ) + 1)
    let ema0 := listMean (prices.take period)
    (prices.drop period).foldl (fun ema price => (price - ema) * multiplier + ema) ema0

/-! ## Helper lemmas -/

/-- Truncating a nonnegative rational quotient of naturals is natural
division. -/
theorem toNat_floor_div_nat (a b : ℕ) : Int.toNat ⌊((a : ℚ) / (b : ℚ))⌋ = a / b := by
  rw [Int.floor_toNat]
  exact Nat.floor_div_eq_div a b

/-- `promotionCutoff` in natural-number arithmetic. -/
theorem promotionCutoff_eq (n : ℕ) : promotionCutoff n = max 1 (10 * n / 100) := by
  rw [promotionCutoff, promotion_threshold]
  have e : (n : ℚ) * (10 / 100) = ((10 * n : ℕ) : ℚ) / ((100 : ℕ) : ℚ) := by
    push_cast; ring
  rw [e, toNat_floor_div_nat]

/-- `demotionCutoff` in natural-number arithmetic. -/
theorem demotionCutoff_eq (n : ℕ) : demotionCutoff n = max 1 (15 * n / 100) := by
  rw [demotionCutoff, demotion_threshold]
  have e : (n : ℚ) * (15 / 100) = ((15 * n : ℕ) : ℚ) / ((100 : ℕ) : ℚ) := by
    push_cast; ring
  rw [e, toNat_floor_div_nat]

/-- `advancing50` in natural-number arithmetic. -/
theorem advancing50_eq (n : ℕ) : advancing50 n = max 1 (n / 2) := by
  rw [advancing50]
  have e : (n : ℚ) * (1 - 50 / 100) = ((n : ℕ) : ℚ) / ((2 : ℕ) : ℚ) := by
    push_cast; ring
  rw [e, toNat_floor_div_nat]

/-- `eliminateCount` in natural-number arithmetic. -/
theorem eliminateCount_eq (n : ℕ) : eliminateCount n = max 1 (n / 2) := by
  rw [eliminateCount]
  have e : (n : ℚ) * (50 / 100) = ((n : ℕ) : ℚ) / ((2 : ℕ) : ℚ) := by
    push_cast; ring
  rw [e, toNat_floor_div_nat]

/-- A tier that lowercases to `platinum` has no next tier. -/
theorem get_next_tier_platinum (t : String) (h : lowerStr t = "platinum") :
    get_next_tier t = none := by
  rw [get_next_tier, h]
  decide

/-! ## C6: tournament score formula -/

/-- C6: `calculate_tournament_score` equals the clamped 40/35/25 formula
for every performance mapping, and the example
`{return: 0.10, sharpe_ratio: 1.0, max_drawdown: 0.05}` scores 72.5. -/
theorem tournament_score_formula_and_example :
    (∀ p : Performance,
      calculate_tournament_score p =
        min 100 (max 0 (min 40 (max 0 (p.ret.getD 0 * 400)) +
          min 35 (max 0 (p.sharpe_ratio.getD 0 * 20)) +
          max 0 (25 - p.max_drawdown.getD 1 * 250)))) ∧
    calculate_tournament_score ⟨some (10 / 100), some 1, some (5 / 100)⟩ = 145 / 2 := by
  constructor
  · intro p
    rfl
  · norm_num [calculate_tournament_score, min_def, max_def]

/-! ## C10: EMA on empty and short price lists -/

/-- C10: for every `period ≥ 1`, `calculate_ema` returns 0.0 on an empty
price list, and the mean of the prices on a non-empty list shorter than
the period. -/
theorem calculate_ema_empty_and_short (period : ℕ) (prices : List ℚ)
    (hp : 1 ≤ period) :
    calculate_ema [] period = 0 ∧
    (prices ≠ [] → prices.length < period → calculate_ema prices period = listMean prices) := by
  constructor
  · have h0 : ([] : List ℚ).length < period := by simpa using hp
    rw [calculate_ema, if_pos h0, if_neg (by simp)]
  · intro hne hlt
    rw [calculate_ema, if_pos hlt, if_pos hne]

/-- Witness for C10 at `period = 3`, `prices = [2, 4]`. -/
theorem calculate_ema_empty_and_short_witness :
    calculate_ema [] 3 = 0 ∧ calculate_ema [2, 4] 3 = listMean [2, 4] :=
  ⟨(calculate_ema_empty_and_short 3 [2, 4] (by norm_num)).1,
   (calculate_ema_empty_and_short 3 [2, 4] (by norm_num)).2 (by simp) (by simp)⟩

/-! ## C3: the 4xx branch of the LLM client retry loop -/

/-- C3 (divergence evidence): when every attempt answers HTTP 400, the
client sends 3 requests (the `raise` in the 4xx branch is caught by the
blanket `except Exception` handler, which retries) before the error
propagates, not 1 as the claim requires. -/
theorem chat_completion_400_sends_three_requests :
    chat_completion (fun _ => .httpStatus 400) = (3, .raisedApiError 400) ∧
    (chat_completion (fun _ => .httpStatus 400)).1 ≠ 1 := by
  constructor <;> decide

/-! ## C4: tournament progression from 10 participants -/

/-- C4 counterexample: from 10 participants the projection does not take
4 rounds through 10, 5, 3, 2, 1. -/
theorem tournament_progression_from_ten_counterexample :
    totalRounds 10 ≠ 4 ∧ participantsPerRound 10 ≠ [10, 5, 3, 2, 1] := by
  have a10 : advancing50 10 = 5 := by rw [advancing50_eq]; omega
  have a5 : advancing50 5 = 2 := by rw [advancing50_eq]; omega
  have a2 : advancing50 2 = 1 := by rw [advancing50_eq]; omega
  have h : tournamentRounds 10 = [⟨1, 10, 5, 5⟩, ⟨2, 5, 2, 3⟩, ⟨3, 2, 1, 1⟩] := by
    rw [tournamentRounds]
    simp [tournamentRoundsAux.eq_def, a10, a5, a2]
  constructor
  · rw [totalRounds, h]
    norm_num
  · rw [participantsPerRound, h]
    norm_num

/-- C4 amended: under `advancing = max(1, int(n * 0.5))` the projection
from 10 participants reaches 1 in exactly 3 rounds via 10, 5, 2, 1. -/
theorem tournament_progression_from_ten :
    totalRounds 10 = 3 ∧ participantsPerRound 10 = [10, 5, 2, 1] ∧
    (participantsPerRound 10).getLast? = some 1 := by
  have a10 : advancing50 10 = 5 := by rw [advancing50_eq]; omega
  have a5 : advancing50 5 = 2 := by rw [advancing50_eq]; omega
  have a2 : advancing50 2 = 1 := by rw [advancing50_eq]; omega
  have h : tournamentRounds 10 = [⟨1, 10, 5, 5⟩, ⟨2, 5, 2, 3⟩, ⟨3, 2, 1, 1⟩] := by
    rw [tournamentRounds]
    simp [tournamentRoundsAux.eq_def, a10, a5, a2]
  refine ⟨by rw [totalRounds, h]; rfl, ?_, ?_⟩ <;> rw [participantsPerRound, h] <;> rfl

/-! ## C2: league promotion/demotion cutoffs -/

/-- C2 counterexample: at 47 participants the code's truncating
promotion cutoff is 4, while the claimed `max(1, round(n*0.10))`
formula yields 5. -/
theorem promotion_cutoff_round_counterexample :
    promotionCutoff 47 = 4 ∧ promotionCutoffSpec 47 = 5 ∧
    promotionCutoff 47 ≠ promotionCutoffSpec 47 := by
  have h4 : promotionCutoff 47 = 4 := by
    rw [promotionCutoff_eq]
    omega
  have h5 : promotionCutoffSpec 47 = 5 := by
    rw [promotionCutoffSpec, promotion_threshold]
    have e : ((47 : ℕ) : ℚ) * (10 / 100) + 1 / 2 = ((26 : ℕ) : ℚ) / ((5 : ℕ) : ℚ) := by
      push_cast
      norm_num
    rw [round_eq, e, toNat_floor_div_nat]
    omega
  exact ⟨h4, h5, by rw [h4, h5]; norm_num⟩

/-- C2 amended: `process_monthly_progression` computes its cutoffs as
`max(1, int(n × threshold))` (truncation, not rounding); at `n = 47`
the promotion cutoff is 4; and an agent whose tier lowercases to
`platinum` never appears among the promotions. -/
theorem league_cutoffs_and_platinum (standings : List Standing)
    (tierOf : ℕ → Option String) (hn : 1 ≤ standings.length) :
    promotionCutoff standings.length = max 1 (10 * standings.length / 100) ∧
    demotionCutoff standings.length = max 1 (15 * standings.length / 100) ∧
    promotionCutoff 47 = 4 ∧
    (∀ ch ∈ processPromotions standings (promotionCutoff standings.length) tierOf,
      get_next_tier ch.from_tier = some ch.to_tier ∧ lowerStr ch.from_tier ≠ "platinum") := by
  refine ⟨promotionCutoff_eq _, demotionCutoff_eq _, by rw [promotionCutoff_eq]; omega, ?_⟩
  intro ch hch
  rcases List.mem_filterMap.mp hch with ⟨is, his, heq⟩
  rcases htier : tierOf is.2.agent_id with _ | current
  · simp only [htier] at heq
    exact Option.noConfusion heq
  · simp only [htier] at heq
    rcases hnext : get_next_tier current with _ | next
    · simp only [hnext] at heq
      exact Option.noConfusion heq
    · simp only [hnext] at heq
      by_cases hne : next ≠ current
      · rw [if_pos hne] at heq
        injection heq with heq2
        subst heq2
        refine ⟨hnext, ?_⟩
        intro hplat
        rw [get_next_tier_platinum current hplat] at hnext
        exact Option.noConfusion hnext
      · rw [if_neg hne] at heq
        exact Option.noConfusion heq

/-- Witness for C2 amended: 47 platinum agents, promotions list empty of
platinum promotions. -/
theorem league_cutoffs_and_platinum_witness :
    promotionCutoff ((List.range 47).map (fun i => (⟨i, "a", 0⟩ : Standing))).length = 4 ∧
    ∀ ch ∈ processPromotions ((List.range 47).map (fun i => (⟨i, "a", 0⟩ : Standing)))
        (promotionCutoff ((List.range 47).map (fun i => (⟨i, "a", 0⟩ : Standing))).length)
        (fun _ => some "platinum"),
      lowerStr ch.from_tier ≠ "platinum" := by
  have h := league_cutoffs_and_platinum
    ((List.range 47).map (fun i => (⟨i, "a", 0⟩ : Standing)))
    (fun _ => some "platinum") (by simp)
  refine ⟨?_, fun ch hch => (h.2.2.2 ch hch).2⟩
  have hlen : ((List.range 47).map (fun i => (⟨i, "a", 0⟩ : Standing))).length = 47 := by
    simp
  rw [hlen]
  exact h.2.2.1

/-! ## Risk-manager lemmas -/

/-- The composite risk score is clamped to `[0, 100]` whatever its
inputs are. -/
theorem calculate_risk_score_bounds (a b c d e f : ℚ) :
    0 ≤ calculate_risk_score a b c d e f ∧ calculate_risk_score a b c d e f ≤ 100 := by
  unfold calculate_risk_score
  constructor
  · exact le_min (by norm_num) (le_max_left _ _)
  · exact min_le_left _ _

/-- Mean of a nonempty constant list. -/
theorem listMean_const (l : List ℚ) (c : ℚ) (h : ∀ x ∈ l, x = c) (hne : l ≠ []) :
    listMean l = c := by
  have hs : l.sum = l.length • c := List.sum_eq_card_nsmul l c h
  have hpos : 0 < l.length := List.length_pos.mpr hne
  have hlen : (l.length : ℚ) ≠ 0 := Nat.cast_ne_zero.mpr (by omega)
  rw [listMean, hs, nsmul_eq_mul]
  field_simp

/-- Variance of a constant list is zero. -/
theorem listVariance_const (l : List ℚ) (c : ℚ) (h : ∀ x ∈ l, x = c) :
    listVariance l = 0 := by
  rcases eq_or_ne l [] with rfl | hne
  · simp [listVariance]
  · have hm := listMean_const l c h hne
    have hz : ∀ x ∈ l.map (fun x => (x - listMean l) ^ 2), x = 0 := by
      intro x hx
      rcases List.mem_map.mp hx with ⟨y, hy, rfl⟩
      rw [hm, h y hy]
      ring
    rw [listVariance, List.sum_eq_card_nsmul _ 0 hz]
    simp

/-- With `sqrtQ 0 = 0` (as for `np.sqrt`), a constant return series
trips the `std > 1e-10` guard and the Sharpe ratio is 0. -/
theorem sharpeRatioOf_const (sqrtQ : ℚ → ℚ) (rs : List ℚ) (c : ℚ)
    (h0 : sqrtQ 0 = 0) (h : ∀ r ∈ rs, r = c) : sharpeRatioOf sqrtQ rs = 0 := by
  rw [sharpeRatioOf]
  split
  · rw [listVariance_const rs c h, h0]
    norm_num
  · rfl

/-! ## C5: risk score bounds and the zero-variance Sharpe guard -/

/-- C5: for every input, the risk score of `calculate_risk_metrics` lies
in `[0, 100]`; and whenever the extracted return series is constant (in
particular an all-positive zero-variance series), the `std > 1e-10`
guard makes the Sharpe ratio exactly 0 instead of dividing. -/
theorem risk_score_in_range_and_sharpe_guard (sqrtQ : ℚ → ℚ) (trades : List Trade)
    (positions : List Position) (cc ic : ℚ) :
    (0 ≤ (calculate_risk_metrics sqrtQ trades positions cc ic).risk_score ∧
      (calculate_risk_metrics sqrtQ trades positions cc ic).risk_score ≤ 100) ∧
    (sqrtQ 0 = 0 → ∀ c : ℚ, 0 < c → (∀ r ∈ tradeReturns trades ic, r = c) →
      (calculate_risk_metrics sqrtQ trades positions cc ic).sharpe_ratio = 0) := by
  constructor
  · rw [calculate_risk_metrics]
    split
    · simp [zeroMetrics]
    · dsimp only
      split
      · simp [zeroMetrics]
      · exact calculate_risk_score_bounds _ _ _ _ _ _
  · intro h0 c _hc hconst
    rw [calculate_risk_metrics]
    split
    · simp [zeroMetrics]
    · dsimp only
      split
      · simp [zeroMetrics]
      · exact sharpeRatioOf_const sqrtQ _ c h0 hconst

/-- Witness for C5: two identical winning trades of +1 on capital 1000
give a constant positive return series, Sharpe 0, score in range. -/
theorem risk_score_in_range_and_sharpe_guard_witness :
    0 ≤ (calculate_risk_metrics (fun _ => 0) [⟨0, none, some 1⟩, ⟨1, none, some 1⟩]
        [] 1000 1000).risk_score ∧
    (calculate_risk_metrics (fun _ => 0) [⟨0, none, some 1⟩, ⟨1, none, some 1⟩]
        [] 1000 1000).sharpe_ratio = 0 :=
  ⟨(risk_score_in_range_and_sharpe_guard (fun _ => 0)
      [⟨0, none, some 1⟩, ⟨1, none, some 1⟩] [] 1000 1000).1.1,
   (risk_score_in_range_and_sharpe_guard (fun _ => 0)
      [⟨0, none, some 1⟩, ⟨1, none, some 1⟩] [] 1000 1000).2 rfl (1 / 1000) (by norm_num)
      (by norm_num [tradeReturns, tradeTimestamp, List.insertionSort, List.orderedInsert])⟩

/-! ## C8: all-zero metrics on empty or pnl-less trade data -/

/-- C8: with an empty trades list, or with positive initial capital and
no trade carrying a non-null pnl, every field of the returned
`RiskMetrics` is 0. -/
theorem risk_metrics_zero_on_degenerate_input (sqrtQ : ℚ → ℚ) (trades : List Trade)
    (positions : List Position) (cc ic : ℚ)
    (h : trades = [] ∨ ((∀ t ∈ trades, t.pnl = none) ∧ 0 < ic)) :
    calculate_risk_metrics sqrtQ trades positions cc ic = zeroMetrics := by
  rcases h with rfl | ⟨hnone, _hic⟩
  · rw [calculate_risk_metrics]
    simp
  · have hrs : tradeReturns trades ic = [] := by
      rw [tradeReturns]
      have hfm : trades.filterMap (fun t =>
          match t.pnl with
          | some p => if ic > 0 then some (tradeTimestamp t, p / ic) else none
          | none => none) = [] := by
        rw [List.filterMap_eq_nil_iff]
        intro t ht
        rw [hnone t ht]
      rw [hfm]
      rfl
    rw [calculate_risk_metrics]
    split
    · rfl
    · dsimp only
      rw [if_pos hrs]

/-- Witness for C8: one trade with null pnl, capital 1000. -/
theorem risk_metrics_zero_on_degenerate_input_witness :
    calculate_risk_metrics (fun _ => 0) [⟨0, none, none⟩] [] 1000 1000 = zeroMetrics :=
  risk_metrics_zero_on_degenerate_input (fun _ => 0) [⟨0, none, none⟩] [] 1000 1000
    (Or.inr ⟨by simp, by norm_num⟩)

/-! ## C1: the drawdown component of the risk score -/

/-- C1 (divergence evidence): on the trade series with pnl +100 then
−100 on capital 1000 (returns 0.1 then −0.1), the signed maximum
drawdown −0.1 is what `calculate_risk_metrics` feeds to the score, so
the drawdown component evaluates to `max(0, 20 − (−0.1)·66.67) =
26.667 > 20`, the overall score becomes 34.167 — while the reported
`max_drawdown` field is the absolute value 0.1, under which the claimed
component would be `20 − 6.667 = 13.333`. -/
theorem drawdown_component_exceeds_twenty :
    maxDrawdown (tradeReturns [⟨0, none, some 100⟩, ⟨1, none, some (-100)⟩] 1000) = -(1 / 10) ∧
    drawdownScore (-(1 / 10)) = 26667 / 1000 ∧
    (20 : ℚ) < 26667 / 1000 ∧
    drawdownScore (1 / 10) = 13333 / 1000 ∧
    (calculate_risk_metrics (fun _ => 0) [⟨0, none, some 100⟩, ⟨1, none, some (-100)⟩]
        [] 1000 1000).max_drawdown = 1 / 10 ∧
    (calculate_risk_metrics (fun _ => 0) [⟨0, none, some 100⟩, ⟨1, none, some (-100)⟩]
        [] 1000 1000).risk_score = 34167 / 1000 := by
  have hrs : tradeReturns [⟨0, none, some 100⟩, ⟨1, none, some (-100)⟩] 1000 =
      [1 / 10, -(1 / 10)] := by
    norm_num [tradeReturns, tradeTimestamp, List.insertionSort, List.orderedInsert]
  have hmd : maxDrawdown ([1 / 10, -(1 / 10)] : List ℚ) = -(1 / 10) := by
    norm_num [maxDrawdown, drawdownSeries, cumulativeReturns, runningPeak, listMin,
      List.scanl, max_def, min_def]
  refine ⟨by rw [hrs, hmd], by norm_num [drawdownScore, max_def], by norm_num,
    by norm_num [drawdownScore, max_def], ?_, ?_⟩
  · rw [calculate_risk_metrics, if_neg (by simp), if_neg (by rw [hrs]; simp)]
    simp only [hrs, hmd]
    norm_num
  · rw [calculate_risk_metrics, if_neg (by simp), if_neg (by rw [hrs]; simp)]
    simp only [hrs, hmd]
    norm_num [sharpeRatioOf, sortinoRatioOf, volatilityOf, leverageUsageOf, consistencyOf,
      listMean, listVariance, calculate_risk_score, drawdownScore, min_def, max_def]

/-! ## C7: login rate limiting -/

/-- C7: six requests to `/api/v1/auth/login` from one client key within
a 300-second span: the first five are forwarded and the sixth is
answered 429 with `limit = 5` and `period = 300`, never forwarded. -/
theorem login_sixth_request_rejected (t0 t1 t2 t3 t4 t5 : ℚ)
    (h01 : t0 ≤ t1) (h12 : t1 ≤ t2) (h23 : t2 ≤ t3) (h34 : t3 ≤ t4) (h45 : t4 ≤ t5)
    (hspan : t5 - t0 ≤ 300) :
    (processRequests "/api/v1/auth/login" [] [t0, t1, t2, t3, t4, t5]).2 =
      [.forwarded, .forwarded, .forwarded, .forwarded, .forwarded, .rejected 5 300] := by
  have hglim : getLimit "/api/v1/auth/login" 100 60 = ⟨5, 300⟩ := by decide
  have hne : ("/api/v1/auth/login" : String) ≠ "/health" := by decide
  have c1 : ¬ (t1 - t0 > 300) := by linarith
  have c2 : ¬ (t2 - t0 > 300) := by linarith
  have c3 : ¬ (t3 - t0 > 300) := by linarith
  have c4 : ¬ (t4 - t0 > 300) := by linarith
  have c5 : ¬ (t5 - t0 > 300) := by linarith
  have r0 : rateLimitStep "/api/v1/auth/login" [] t0 = ([t0], .forwarded) := by
    simp only [rateLimitStep, hglim, if_neg hne]
    norm_num [cleanOld]
  have r1 : rateLimitStep "/api/v1/auth/login" [t0] t1 = ([t0, t1], .forwarded) := by
    simp only [rateLimitStep, hglim, if_neg hne]
    norm_num [cleanOld, c1]
  have r2 : rateLimitStep "/api/v1/auth/login" [t0, t1] t2 = ([t0, t1, t2], .forwarded) := by
    simp only [rateLimitStep, hglim, if_neg hne]
    norm_num [cleanOld, c2]
  have r3 : rateLimitStep "/api/v1/auth/login" [t0, t1, t2] t3 =
      ([t0, t1, t2, t3], .forwarded) := by
    simp only [rateLimitStep, hglim, if_neg hne]
    norm_num [cleanOld, c3]
  have r4 : rateLimitStep "/api/v1/auth/login" [t0, t1, t2, t3] t4 =
      ([t0, t1, t2, t3, t4], .forwarded) := by
    simp only [rateLimitStep, hglim, if_neg hne]
    norm_num [cleanOld, c4]
  have r5 : rateLimitStep "/api/v1/auth/login" [t0, t1, t2, t3, t4] t5 =
      ([t0, t1, t2, t3, t4], .rejected 5 300) := by
    simp only [rateLimitStep, hglim, if_neg hne]
    norm_num [cleanOld, c5]
  simp only [processRequests, r0, r1, r2, r3, r4, r5]

/-- Witness for C7 at times 0, 1, 2, 3, 4, 5. -/
theorem login_sixth_request_rejected_witness :
    (processRequests "/api/v1/auth/login" [] [0, 1, 2, 3, 4, 5]).2 =
      [.forwarded, .forwarded, .forwarded, .forwarded, .forwarded, .rejected 5 300] :=
  login_sixth_request_rejected 0 1 2 3 4 5 (by norm_num) (by norm_num) (by norm_num)
    (by norm_num) (by norm_num) (by norm_num)

/-! ## C9: tournament round elimination invariants -/

/-- After setting the status of the first entry for one agent, lookups
for that agent see the eliminated status. -/
theorem findEntry_eliminateAgent_same (db : List CompetitionEntry) (comp a : ℕ)
    (reason : String) :
    findEntry (eliminateAgent db comp a reason) comp a =
      (findEntry db comp a).map
        (fun e => { e with status := "eliminated", elimination_reason := reason }) := by
  induction db with
  | nil => rfl
  | cons e es ih =>
    by_cases hkey : e.competition_id = comp ∧ e.agent_id = a
    · rw [eliminateAgent, if_pos hkey]
      simp only [findEntry]
      rw [List.find?_cons_of_pos _ (by simp [hkey.1, hkey.2]),
        List.find?_cons_of_pos _ (by simp [hkey.1, hkey.2])]
      rfl
    · rw [eliminateAgent, if_neg hkey]
      simp only [findEntry]
      rw [List.find?_cons_of_neg _ (by simpa using hkey),
        List.find?_cons_of_neg _ (by simpa using hkey)]
      exact ih

/-- Eliminating one agent leaves lookups of other agents unchanged. -/
theorem findEntry_eliminateAgent_other (db : List CompetitionEntry) (comp a b : ℕ)
    (reason : String) (hab : a ≠ b) :
    findEntry (eliminateAgent db comp b reason) comp a = findEntry db comp a := by
  induction db with
  | nil => rfl
  | cons e es ih =>
    have hna : e.agent_id = b → e.agent_id ≠ a := fun hb ha => hab (ha.symm.trans hb)
    by_cases hkey : e.competition_id = comp ∧ e.agent_id = b
    · rw [eliminateAgent, if_pos hkey]
      simp only [findEntry]
      rw [List.find?_cons_of_neg _ (by simp [hna hkey.2]),
        List.find?_cons_of_neg _ (by simp [hna hkey.2])]
    · rw [eliminateAgent, if_neg hkey]
      simp only [findEntry]
      by_cases hpa : e.competition_id = comp ∧ e.agent_id = a
      · rw [List.find?_cons_of_pos _ (by simp [hpa.1, hpa.2]),
          List.find?_cons_of_pos _ (by simp [hpa.1, hpa.2])]
      · rw [List.find?_cons_of_neg _ (by simpa using hpa),
          List.find?_cons_of_neg _ (by simpa using hpa)]
        exact ih

/-- Folding eliminations over agents other than `a` leaves lookups of
`a` unchanged. -/
theorem findEntry_fold_other (L : List Ranking) (db : List CompetitionEntry)
    (comp a : ℕ) (reason : String) (ha : ∀ r ∈ L, r.agent_id ≠ a) :
    findEntry (L.foldl (fun d r => eliminateAgent d comp r.agent_id reason) db) comp a =
      findEntry db comp a := by
  induction L generalizing db with
  | nil => rfl
  | cons x xs ih =>
    rw [List.foldl_cons]
    rw [ih _ (fun r hr => ha r (List.mem_cons_of_mem x hr))]
    exact findEntry_eliminateAgent_other db comp a x.agent_id reason
      (fun hx => ha x (List.mem_cons_self x xs) hx.symm)

/-- After the elimination fold, every listed agent's first entry (when
present) has status `eliminated`. -/
theorem findEntry_fold_eliminated (L : List Ranking) (db : List CompetitionEntry)
    (comp : ℕ) (reason : String) :
    ∀ r ∈ L, ∀ ent,
      findEntry (L.foldl (fun d r => eliminateAgent d comp r.agent_id reason) db) comp
          r.agent_id = some ent →
      ent.status = "eliminated" := by
  induction L generalizing db with
  | nil =>
    intro r hr
    exact absurd hr (List.not_mem_nil r)
  | cons x xs ih =>
    intro r hr ent hent
    rw [List.foldl_cons] at hent
    rcases List.mem_cons.mp hr with rfl | hmem
    · by_cases hxs : ∃ r' ∈ xs, r'.agent_id = r.agent_id
      · rcases hxs with ⟨r', hr', heq⟩
        rw [← heq] at hent
        exact ih _ r' hr' ent hent
      · push_neg at hxs
        rw [findEntry_fold_other xs _ comp r.agent_id reason hxs] at hent
        rw [findEntry_eliminateAgent_same] at hent
        rcases hfind : findEntry db comp r.agent_id with _ | e0
        · rw [hfind] at hent
          exact Option.noConfusion hent
        · rw [hfind] at hent
          injection hent with h2
          rw [← h2]
    · exact ih _ r hmem ent hent

/-- C9: a tournament round on `n > 2` ranked participants with distinct
agent ids eliminates exactly `max(1, int(n*0.5))` lowest-ranked
participants; advancing and eliminated partition the rankings, the
participant count strictly decreases, and each eliminated agent's first
matching competition entry ends with status `eliminated`. -/
theorem run_tournament_round_invariants (rankings : List Ranking)
    (db : List CompetitionEntry) (comp round_num : ℕ)
    (hn : 2 < rankings.length)
    (hnodup : (rankings.map Ranking.agent_id).Nodup) :
    (eliminatedList rankings).length = eliminateCount rankings.length ∧
    advancingList rankings ++ eliminatedList rankings = rankings ∧
    (∀ a, a ∈ (advancingList rankings).map Ranking.agent_id →
      a ∉ (eliminatedList rankings).map Ranking.agent_id) ∧
    (advancingList rankings).length < rankings.length ∧
    (∀ r ∈ eliminatedList rankings, ∀ ent,
      findEntry (runRoundDb db comp round_num rankings) comp r.agent_id = some ent →
      ent.status = "eliminated") := by
  have hec : eliminateCount rankings.length = rankings.length / 2 := by
    rw [eliminateCount_eq]
    omega
  have helt : eliminateCount rankings.length < rankings.length := by
    omega
  have hadv : advancingList rankings =
      rankings.take (rankings.length - eliminateCount rankings.length) := by
    rw [advancingList, if_pos helt]
  have helim : eliminatedList rankings =
      rankings.drop (rankings.length - eliminateCount rankings.length) := by
    rw [eliminatedList, if_pos helt]
  have happend : advancingList rankings ++ eliminatedList rankings = rankings := by
    rw [hadv, helim, List.take_append_drop]
  refine ⟨?_, happend, ?_, ?_, ?_⟩
  · rw [helim, List.length_drop]
    omega
  · intro a hadv_mem helim_mem
    have hmap : (rankings.map Ranking.agent_id) =
        (advancingList rankings).map Ranking.agent_id ++
          (eliminatedList rankings).map Ranking.agent_id := by
      rw [← List.map_append, happend]
    rw [hmap] at hnodup
    exact (List.disjoint_of_nodup_append hnodup) hadv_mem helim_mem
  · rw [hadv, List.length_take]
    omega
  · exact findEntry_fold_eliminated (eliminatedList rankings) db comp _

/-- Witness for C9: five ranked agents, one matching entry each. -/
theorem run_tournament_round_invariants_witness :
    (eliminatedList [⟨1, 50⟩, ⟨2, 40⟩, ⟨3, 30⟩, ⟨4, 20⟩, ⟨5, 10⟩]).length =
      eliminateCount ([⟨1, 50⟩, ⟨2, 40⟩, ⟨3, 30⟩, ⟨4, 20⟩, ⟨5, 10⟩] : List Ranking).length ∧
    (∀ r ∈ eliminatedList [⟨1, 50⟩, ⟨2, 40⟩, ⟨3, 30⟩, ⟨4, 20⟩, ⟨5, 10⟩], ∀ ent,
      findEntry (runRoundDb [⟨7, 4, "active", ""⟩, ⟨7, 5, "active", ""⟩] 7 1
          [⟨1, 50⟩, ⟨2, 40⟩, ⟨3, 30⟩, ⟨4, 20⟩, ⟨5, 10⟩]) 7 r.agent_id = some ent →
      ent.status = "eliminated") := by
  have h := run_tournament_round_invariants [⟨1, 50⟩, ⟨2, 40⟩, ⟨3, 30⟩, ⟨4, 20⟩, ⟨5, 10⟩]
    [⟨7, 4, "active", ""⟩, ⟨7, 5, "active", ""⟩] 7 1 (by norm_num) (by simp)
  exact ⟨h.1, h.2.2.2.2⟩

end TradingArena
